import Mathlib

/-!
Verification development for the LSP-Repograph resolution engine.

The definitions below are shallow embeddings of the Python sources:
  * `src/lsp_repograph/core/multilspy_client.py`  (class `MultilspyLSPClient`)
  * `src/lsp_repograph/core/pyright_client.py`    (class `PyrightLSPClient`)
  * `src/lsp_repograph/tools/simple_code_tool.py` (class `SimpleCodeTool`)
  * `src/lsp_repograph/core/lsp/jedi_language_server/custom_jedi_server.py`

External effects (the language-server subprocess, the filesystem, uuid
randomness) are modelled as explicit parameters: the server's answer to a
query is an oracle value, the filesystem is a predicate `String → Bool`
telling which paths exist, and the random scratch-file name is an input.
-/

namespace LspRepograph

/-! ### Data model

A multilspy result dict is modelled by the fields this code actually reads:
the three path-carrying keys (each optional, as in a Python dict) plus the
position used for deduplication keys. -/

/-- Model of a multilspy definition/reference result dict: the optional
`absolutePath`, `relativePath` and `uri` keys, and the position. -/
structure Ref where
  absolutePath : Option String
  relativePath : Option String
  uri : Option String
  line : Nat
  character : Nat
deriving DecidableEq

/-- Model of a workspace-symbol result dict as read by `find_ws_symbol_refs`:
`symbol['location']['uri']` and `location['range']['start']`. -/
structure Sym where
  name : String
  uri : String
  line : Nat
  character : Nat
deriving DecidableEq

/-- Outcome of a `self.server.request_*` call inside a `try` block:
the server returned a Python list, returned a non-list value, or raised. -/
inductive SrvResp (α : Type) where
  | list (xs : List α)
  | notList
  | raises
deriving DecidableEq

/-- Outcome of `request_definition` inside `search_non_ws_symbol_def`
(whose body has no `isinstance` check: it either returns the value or the
`except` branch catches an exception). -/
inductive DefResp where
  | value (xs : List Ref)
  | raises
deriving DecidableEq

/-- Model of `MultilspyLSPClient` state: the server handle (set to `None` by
`shutdown`) and the resolved repository root path. -/
structure Client where
  server : Option Unit
  repoPath : String
deriving DecidableEq

/-- Filesystem model: which absolute paths currently exist. -/
def FS : Type := String → Bool

/-- Model of `open(p, 'w')` + write: after it, `p` exists. -/
def fs_write_file (p : String) (fs : FS) : FS :=
  fun q => if q = p then true else fs q

/-- Model of `Path.unlink`: after it, `p` does not exist. -/
def fs_unlink (p : String) (fs : FS) : FS :=
  fun q => if q = p then false else fs q

/-! ### Function `_is_in_venv` (multilspy_client.py lines 121-162) -/

/-- The `venv_patterns` list from `_is_in_venv`, verbatim. -/
def venv_patterns : List String :=
  ["/venv/", "\\venv\\",
   "/env/", "\\env\\",
   "/.venv/", "\\.venv\\",
   "/site-packages/", "\\site-packages\\",
   "/lib/python", "\\lib\\python",
   "/Scripts/", "\\Scripts\\",
   "/bin/python", "\\bin\\python"]

/-- Model of Python's `pat in s` substring test, on char lists. -/
def chars_contain (s pat : List Char) : Bool :=
  match s with
  | [] => pat.isEmpty
  | _ :: t => pat.isPrefixOf s || chars_contain t pat

/-- Substring test on strings (`pattern in path_str`). -/
def str_contains (s pat : String) : Bool :=
  chars_contain s.data pat.data

/-- Model of Python `str.lower()` (character-wise). -/
def str_lower (s : String) : String :=
  ⟨s.data.map Char.toLower⟩

/-- The `paths_to_check` list built by `_is_in_venv`: `absolutePath`,
`relativePath`, and the `uri` with its `file://` scheme stripped (the uri is
only added when it starts with `file://`). -/
def paths_to_check (r : Ref) : List String :=
  (match r.absolutePath with | some p => [p] | none => []) ++
  (match r.relativePath with | some p => [p] | none => []) ++
  (match r.uri with
   | some u => if "file://".data.isPrefixOf u.data then [⟨u.data.drop 7⟩] else []
   | none => [])

/-- Embedding of `_is_in_venv`: some non-empty candidate path, lowercased,
contains one of the `venv_patterns` as a substring. -/
def is_in_venv (r : Ref) : Bool :=
  (paths_to_check r).any fun p =>
    (p != "") && (venv_patterns.any fun pat => str_contains (str_lower p) pat)

/-! ### Function `_is_scratch_file_ref` (multilspy_client.py lines 437-470) -/

/-- Embedding of `_is_scratch_file_ref`: the result's `absolutePath` equals
the scratch path, or its `relativePath` resolved against the repo root does,
or its `file://` uri does. -/
def is_scratch_file_ref (repoPath scratchPath : String) (r : Ref) : Bool :=
  (match r.absolutePath with
   | some p => p == scratchPath
   | none => false) ||
  (match r.relativePath with
   | some p => (repoPath ++ "/" ++ p) == scratchPath
   | none => false) ||
  (match r.uri with
   | some u =>
     "file://".data.isPrefixOf u.data && ((⟨u.data.drop 7⟩ : String) == scratchPath)
   | none => false)

/-! ### Position-based queries (multilspy_client.py lines 43-119) -/

/-- Embedding of `search_symbol`: guard on the server handle, issue the
workspace-symbol query, return the result if it is a list, `[]` on a
non-list result or an exception. -/
def search_symbol (c : Client) (outcome : SrvResp Sym) : List Sym :=
  if c.server.isNone then []
  else
    match outcome with
    | .list xs => xs
    | .notList => []
    | .raises => []

/-- Embedding of `find_definition`: guard on the server handle, issue the
definition query, return the raw result if it is a list (no filtering),
`[]` otherwise. -/
def find_definition (c : Client) (outcome : SrvResp Ref) : List Ref :=
  if c.server.isNone then []
  else
    match outcome with
    | .list xs => xs
    | .notList => []
    | .raises => []

/-- Embedding of `find_references`: guard on the server handle, issue the
references query, drop every result for which `_is_in_venv` holds, `[]` on a
non-list result or an exception. -/
def find_references (c : Client) (outcome : SrvResp Ref) : List Ref :=
  if c.server.isNone then []
  else
    match outcome with
    | .list xs => xs.filter (fun r => !is_in_venv r)
    | .notList => []
    | .raises => []

/-! ### FQN (scratch-file) queries (multilspy_client.py lines 185-335) -/

/-- The scratch content and target position computed by the two FQN
resolvers. -/
structure ScratchPlan where
  scratch_content : String
  target_line : Nat
  target_char : Nat
deriving DecidableEq

/-- Scratch-content computation of `search_non_ws_symbol_def` (lines
198-208): `import <library>` at (0, 7) without a symbol, otherwise
`import <library> as __m` + newline + `__m.<symbol>` at line 1, character
`len("__m." + symbol) - 1`. -/
def scratch_plan_def (library : String) (symbol : Option String) : ScratchPlan :=
  match symbol with
  | none =>
    { scratch_content := "import " ++ library, target_line := 0, target_char := 7 }
  | some s =>
    { scratch_content := "import " ++ library ++ " as __m\n" ++ "__m." ++ s,
      target_line := 1,
      target_char := ("__m." ++ s).length - 1 }

/-- Scratch-content computation of `find_non_ws_symbol_refs` (lines
286-296), identical to the one in `search_non_ws_symbol_def`. -/
def scratch_plan_refs (library : String) (symbol : Option String) : ScratchPlan :=
  match symbol with
  | none =>
    { scratch_content := "import " ++ library, target_line := 0, target_char := 7 }
  | some s =>
    { scratch_content := "import " ++ library ++ " as __m\n" ++ "__m." ++ s,
      target_line := 1,
      target_char := ("__m." ++ s).length - 1 }

/-- The scratch path `self.repo_path / scratch_filename`. -/
def scratch_path_of (c : Client) (scratchName : String) : String :=
  c.repoPath ++ "/" ++ scratchName

/-- Observable trace of one FQN-resolver call: its return value, the
filesystem when it returns, whether the scratch file was written, whether a
query was issued to the server, and the computed scratch plan. -/
structure FqnRunOut where
  result : List Ref
  fs : FS
  wrote_scratch : Bool
  queried_server : Bool
  plan : ScratchPlan

/-- Embedding of `search_non_ws_symbol_def` (lines 185-245): guard on the
server handle, compute the scratch plan, write the scratch file, query the
definition (returning its value, or `[]` if it raises), and in the `finally`
block unlink the scratch file if it exists. The scratch filename (uuid) is
the `scratchName` input. -/
def search_non_ws_symbol_def (c : Client) (library : String) (symbol : Option String)
    (scratchName : String) (outcome : DefResp) (fs : FS) : FqnRunOut :=
  if c.server.isNone then
    { result := [], fs := fs, wrote_scratch := false, queried_server := false,
      plan := { scratch_content := "", target_line := 0, target_char := 0 } }
  else
    let plan := scratch_plan_def library symbol
    let scratchPath := scratch_path_of c scratchName
    let fs1 := fs_write_file scratchPath fs
    let res : List Ref :=
      match outcome with
      | .value xs => xs
      | .raises => []
    let fs2 := if fs1 scratchPath then fs_unlink scratchPath fs1 else fs1
    { result := res, fs := fs2, wrote_scratch := true, queried_server := true,
      plan := plan }

/-- Embedding of `find_non_ws_symbol_refs` (lines 272-335): guard on the
server handle, compute the scratch plan, write the scratch file, query the
references, keep only results that are neither in a venv directory nor in
the scratch file itself, and in the `finally` block unlink the scratch file
if it exists. -/
def find_non_ws_symbol_refs (c : Client) (library : String) (symbol : Option String)
    (scratchName : String) (outcome : SrvResp Ref) (fs : FS) : FqnRunOut :=
  if c.server.isNone then
    { result := [], fs := fs, wrote_scratch := false, queried_server := false,
      plan := { scratch_content := "", target_line := 0, target_char := 0 } }
  else
    let plan := scratch_plan_refs library symbol
    let scratchPath := scratch_path_of c scratchName
    let fs1 := fs_write_file scratchPath fs
    let res : List Ref :=
      match outcome with
      | .list xs =>
        xs.filter (fun r => !is_in_venv r && !is_scratch_file_ref c.repoPath scratchPath r)
      | .notList => []
      | .raises => []
    let fs2 := if fs1 scratchPath then fs_unlink scratchPath fs1 else fs1
    { result := res, fs := fs2, wrote_scratch := true, queried_server := true,
      plan := plan }

/-! ### Function `find_ws_symbol_refs` (multilspy_client.py lines 362-435) -/

/-- Embedding of `find_ws_symbol_refs`: guard on the server handle, run the
workspace-symbol query; on a non-list, empty, or ambiguous (more than one
match) result return `[]`; otherwise extract the unique symbol's position
(stripping a `file://` scheme) and run the references query there, keeping
only non-venv results. The references oracle takes the queried path and
position. -/
def find_ws_symbol_refs (c : Client) (symOutcome : SrvResp Sym)
    (refOracle : String → Nat → Nat → SrvResp Ref) : List Ref :=
  if c.server.isNone then []
  else
    match symOutcome with
    | .notList => []
    | .raises => []
    | .list defs =>
      match defs with
      | [] => []
      | [s] =>
        let filePath : String :=
          if "file://".data.isPrefixOf s.uri.data then ⟨s.uri.data.drop 7⟩ else s.uri
        match refOracle filePath s.line s.character with
        | .list refs => refs.filter (fun r => !is_in_venv r)
        | .notList => []
        | .raises => []
      | _ => []

/-- Embedding of `shutdown` (lines 541-546): clear the server handle. -/
def shutdown (c : Client) : Client :=
  { c with server := none }

/-! ### Function `_deduplicate_results` (simple_code_tool.py lines 181-192) -/

/-- Model of a formatted tool result dict: the `file`, `line` and `column`
keys used as the deduplication key. -/
structure ToolResult where
  file : String
  line : Nat
  column : Nat
deriving DecidableEq

/-- The deduplication key `(result['file'], result['line'], result['column'])`. -/
def tool_key (r : ToolResult) : String × Nat × Nat :=
  (r.file, r.line, r.column)

/-- The loop of `_deduplicate_results`, with the `seen` set threaded
explicitly. -/
def dedup_go (seen : List (String × Nat × Nat)) : List ToolResult → List ToolResult
  | [] => []
  | r :: rest =>
    if tool_key r ∈ seen then dedup_go seen rest
    else r :: dedup_go (tool_key r :: seen) rest

/-- Embedding of `_deduplicate_results`: keep the first occurrence of each
`(file, line, column)` key, in input order. -/
def deduplicate_results (results : List ToolResult) : List ToolResult :=
  dedup_go [] results

/-! ### Transport pending-request table (pyright_client.py)

`PyrightLSPClient.pending_requests` is a dict from request id to a mutable
slot `{'event': Event, 'response': None}`.  The dict is modelled as an
association list with unique keys left implicit (ids come from a
monotonically increasing counter); `dict.pop(id, None)` removes the entry,
and the reader mutates the slot in place. -/

/-- Model of a decoded JSON-RPC message as used for dispatch: its optional
integer `id` and an abstract payload. -/
structure RpcResponse where
  rid : Option Nat
  payload : String
deriving DecidableEq

/-- A pending-request slot: the response placed by the reader and whether
the event was set. -/
structure PendingSlot where
  response : Option RpcResponse
  eventSet : Bool
deriving DecidableEq

/-- The `pending_requests` dict. -/
def PendingTable : Type := List (Nat × PendingSlot)

/-- Dict lookup `pending_requests[rid]` / `rid in pending_requests`. -/
def tbl_lookup (t : PendingTable) (rid : Nat) : Option PendingSlot :=
  match t.find? (fun p => p.1 == rid) with
  | some p => some p.2
  | none => none

/-- Dict removal `pending_requests.pop(rid, None)`. -/
def tbl_pop (t : PendingTable) (rid : Nat) : PendingTable :=
  t.filter (fun p => p.1 != rid)

/-- In-place slot update performed by the reader thread. -/
def tbl_set (t : PendingTable) (rid : Nat) (slot : PendingSlot) : PendingTable :=
  t.map (fun p => if p.1 = rid then (rid, slot) else p)

/-- Embedding of the timeout branch of `_send_request` (lines 249-252):
when `response_event.wait(timeout)` returns false, the pending entry is
popped and `None` (the timeout failure) is returned. -/
def send_request_timeout (t : PendingTable) (rid : Nat) :
    Option RpcResponse × PendingTable :=
  (none, tbl_pop t rid)

/-- Embedding of the reader dispatch in `_read_responses` (lines 295-302):
if the parsed message has an `id` present in the pending table, store the
response in that slot and set its event; otherwise (unknown or absent id)
log and continue, leaving the table untouched. -/
def read_dispatch (t : PendingTable) (resp : RpcResponse) : PendingTable :=
  match resp.rid with
  | none => t
  | some rid =>
    match tbl_lookup t rid with
    | none => t
    | some slot => tbl_set t rid { slot with response := some resp, eventSet := true }

/-! ### Session handshake (custom_jedi_server.py lines 125-147) -/

/-- The `completionProvider` capability shape asserted by `start_server`. -/
structure CompletionOpts where
  triggerCharacters : List String
  resolveProvider : Bool
deriving DecidableEq

/-- The capability fields of the initialize response that `start_server`
reads: `capabilities["textDocumentSync"]["change"]` and
`capabilities["completionProvider"]` (each `Option` models a possibly
missing key). -/
structure InitCaps where
  textDocumentSyncChange : Option Nat
  completionProvider : Option CompletionOpts
deriving DecidableEq

/-- The exact `completionProvider` value asserted by `start_server`:
`{"triggerCharacters": [".", "'", "\""], "resolveProvider": True}`. -/
def expected_completion_opts : CompletionOpts :=
  { triggerCharacters := [".", "\x27", "\""], resolveProvider := true }

/-- The capability validation performed by the three `assert` statements in
`start_server`: the sync kind must be `2` and the completion provider must
be present and equal to the expected value. -/
def valid_caps (caps : InitCaps) : Bool :=
  (caps.textDocumentSyncChange == some 2) &&
  caps.completionProvider.isSome &&
  (caps.completionProvider == some expected_completion_opts)

/-- Protocol-visible events of the handshake, in the order `start_server`
performs them. -/
inductive HsEvent where
  | evInitRequest
  | evInitializedNote
  | evReady
deriving DecidableEq

/-- Embedding of the `start_server` handshake: send the initialize request;
if the capability asserts pass, send the `initialized` notification and
yield (queries become possible); if an assert fails, the `AssertionError`
propagates (second component `true`) before any notification or query. -/
def start_server_handshake (caps : InitCaps) : List HsEvent × Bool :=
  if valid_caps caps then
    ([HsEvent.evInitRequest, HsEvent.evInitializedNote, HsEvent.evReady], false)
  else
    ([HsEvent.evInitRequest], true)

/-! ### Wire format (pyright_client.py `_send_request` / `_read_responses`)

The writer computes `content_length = len(request_str.encode('utf-8'))` and
writes `f"Content-Length: {content_length}\r\n\r\n{request_str}"`.  The
subprocess pipes are opened with `text=True`, so the reader works on
characters: `readline()` up to and including a newline, then `read(n)` for
exactly `n` characters.  `request_str` is produced by `json.dumps` with its
defaults (`ensure_ascii=True`, separators `", "` and `": "`), so its UTF-8
byte length equals its character count; the serializer is modelled below. -/

/-- UTF-8 encoded length of one code point (model of Python's
`len(chr(c).encode('utf-8'))`). -/
def utf8_char_len (c : Char) : Nat :=
  if c.toNat < 0x80 then 1
  else if c.toNat < 0x800 then 2
  else if c.toNat < 0x10000 then 3
  else 4

/-- Model of `len(s.encode('utf-8'))`. -/
def utf8_len (s : String) : Nat :=
  (s.data.map utf8_char_len).sum

/-- Decimal digit characters of a natural number (model of Python `str(n)`
for a non-negative int). -/
def nat_chars (n : Nat) : List Char :=
  if n = 0 then ['0'] else (Nat.digits 10 n).reverse.map Nat.digitChar

/-- Model of Python `str(n)` for `n ≥ 0`. -/
def nat_str (n : Nat) : String :=
  ⟨nat_chars n⟩

/-- Model of Python `str(n)` for an arbitrary int. -/
def int_str (n : Int) : String :=
  match n with
  | .ofNat m => nat_str m
  | .negSucc m => "-" ++ nat_str (m + 1)

/-- JSON values, as produced by the request builders (dicts, lists,
strings, ints, bools, `None`). -/
inductive Json where
  | null
  | bool (b : Bool)
  | num (n : Int)
  | str (s : String)
  | arr (elems : List Json)
  | obj (members : List (String × Json))

/-- One lowercase hex digit (`Nat.digitChar` maps 0-15 to `0`-`9`,
`a`-`f`). -/
def hex_digit (n : Nat) : Char :=
  Nat.digitChar (n % 16)

/-- Four lowercase hex digits of a value below `0x10000`, as in a JSON
`\uXXXX` escape. -/
def hex4 (n : Nat) : List Char :=
  [hex_digit (n / 4096 % 16), hex_digit (n / 256 % 16),
   hex_digit (n / 16 % 16), hex_digit (n % 16)]

/-- The `json.dumps` escaping of one character inside a string literal with
`ensure_ascii=True`: the two-character short escapes, `\uXXXX` for other
control and non-ASCII characters, and a surrogate pair above `0xFFFF`. -/
def esc_char (c : Char) : List Char :=
  if c = '"' then ['\\', '"']
  else if c = '\\' then ['\\', '\\']
  else if c = '\n' then ['\\', 'n']
  else if c = '\r' then ['\\', 'r']
  else if c = '\t' then ['\\', 't']
  else if c = '\x08' then ['\\', 'b']
  else if c = '\x0c' then ['\\', 'f']
  else if c.toNat < 0x20 then '\\' :: 'u' :: hex4 c.toNat
  else if c.toNat < 0x7f then [c]
  else if c.toNat < 0x10000 then '\\' :: 'u' :: hex4 c.toNat
  else
    ('\\' :: 'u' :: hex4 (0xd800 + (c.toNat - 0x10000) / 0x400)) ++
    ('\\' :: 'u' :: hex4 (0xdc00 + (c.toNat - 0x10000) % 0x400))

/-- A JSON string literal: quote, escaped characters, quote. -/
def quote_json_str (s : String) : String :=
  ⟨'"' :: ((s.data.map esc_char).flatten ++ ['"'])⟩

mutual

/-- Model of `json.dumps(x)` with default arguments (`ensure_ascii=True`,
item separator `", "`, key separator `": "`, no indent). -/
def json_dumps : Json → String
  | .null => "null"
  | .bool true => "true"
  | .bool false => "false"
  | .num n => int_str n
  | .str s => quote_json_str s
  | .arr xs => "[" ++ dumps_arr xs ++ "]"
  | .obj ms => "\x7b" ++ dumps_members ms ++ "\x7d"

/-- Array elements joined by `", "`. -/
def dumps_arr : List Json → String
  | [] => ""
  | [x] => json_dumps x
  | x :: y :: xs => json_dumps x ++ ", " ++ dumps_arr (y :: xs)

/-- Object members `"key": value` joined by `", "`. -/
def dumps_members : List (String × Json) → String
  | [] => ""
  | [(k, v)] => quote_json_str k ++ ": " ++ json_dumps v
  | (k, v) :: m :: ms =>
    quote_json_str k ++ ": " ++ json_dumps v ++ ", " ++ dumps_members (m :: ms)

end

/-- Embedding of the frame construction in `_send_request` (lines 224-227):
`content_length` is the UTF-8 byte length of the body and the frame is the
`Content-Length` header, a blank line, and the body. -/
def encode_frame (body : String) : String :=
  "Content-Length: " ++ nat_str (utf8_len body) ++ "\r\n\r\n" ++ body

/-- Model of `readline()` on a character stream in text mode: everything up
to and including the first newline. -/
def read_line : List Char → List Char × List Char
  | [] => ([], [])
  | c :: cs =>
    if c = '\n' then ([c], cs)
    else
      let r := read_line cs
      (c :: r.1, r.2)

/-- Python `str.strip()` whitespace (the characters relevant here). -/
def is_py_space (c : Char) : Bool :=
  c = ' ' || c = '\t' || c = '\n' || c = '\r' || c = '\x0b' || c = '\x0c'

/-- Model of Python `str.strip()`. -/
def strip_chars (l : List Char) : List Char :=
  ((l.dropWhile is_py_space).reverse.dropWhile is_py_space).reverse

/-- Model of `header.split(":")[1]`: the characters after the first colon
and before the next one. -/
def header_length_field (line : List Char) : List Char :=
  ((line.dropWhile (fun c => c ≠ ':')).drop 1).takeWhile (fun c => c ≠ ':')

/-- Decimal digit test (code points of `'0'`..`'9'`). -/
def is_digit_char (c : Char) : Bool :=
  48 ≤ c.toNat && c.toNat ≤ 57

/-- Numeric value of a digit character. -/
def digit_val (c : Char) : Nat :=
  c.toNat - '0'.toNat

/-- Model of Python `int(s)` on a stripped string: defined exactly on
non-empty all-digit strings (other inputs raise `ValueError`, which the
reader's `except` turns into a loop exit, modelled as `none`). -/
def parse_nat_chars (l : List Char) : Option Nat :=
  if l ≠ [] ∧ l.all is_digit_char then
    some (l.foldl (fun a c => a * 10 + digit_val c) 0)
  else none

/-- Embedding of one iteration of `_read_responses` (lines 263-302) reading
a single frame: read the header line (empty means end of stream), require
the `Content-Length:` name, parse the length from the text after the colon,
skip one line, and read exactly that many characters as the body (an empty
body read means the stream died).  Returns the body and the remaining
stream. -/
def read_frame (stream : List Char) : Option (List Char × List Char) :=
  if (read_line stream).1 = [] then none
  else if !("Content-Length:".data.isPrefixOf (read_line stream).1) then none
  else
    match parse_nat_chars (strip_chars (header_length_field (read_line stream).1)) with
    | none => none
    | some n =>
      if (read_line (read_line stream).2).2.take n = [] then none
      else some ((read_line (read_line stream).2).2.take n,
                 (read_line (read_line stream).2).2.drop n)

/-- All characters of a list are ASCII. -/
def ascii_chars (l : List Char) : Prop :=
  ∀ c ∈ l, c.toNat < 128

/-- All characters of a string are ASCII (`json.dumps` with
`ensure_ascii=True` guarantees this for its output). -/
def ascii_str (s : String) : Prop :=
  ascii_chars s.data

/-! ### Helper lemmas -/

/-- Membership in a venv-filtered list means the venv test is false. -/
theorem mem_filter_not_venv {xs : List Ref} {r : Ref}
    (h : r ∈ xs.filter (fun r => !is_in_venv r)) : is_in_venv r = false := by
  have := (List.mem_filter.mp h).2
  simpa using this

/-- Membership in the refs-variant filter means both tests are false. -/
theorem mem_filter_not_venv_not_scratch {xs : List Ref} {r : Ref} {repoPath scratchPath : String}
    (h : r ∈ xs.filter (fun r => !is_in_venv r && !is_scratch_file_ref repoPath scratchPath r)) :
    is_in_venv r = false ∧ is_scratch_file_ref repoPath scratchPath r = false := by
  have := (List.mem_filter.mp h).2
  simp only [Bool.and_eq_true, Bool.not_eq_true'] at this
  exact this

/-! ### Claim theorems -/

/-- Claim C1: for both FQN resolvers, with no symbol the scratch content is
the single line `import <module>` queried at line 0, character 7 — the
length of `"import "`, i.e. the position where the module-name token starts
— and with a symbol the content is `import <module> as __m` followed by a
newline and the line `__m.<symbol>`, queried at line 1 at the last
character of that second line (its length minus one). -/
theorem fqn_scratch_plan_spec (library s : String) :
    scratch_plan_def library none =
      { scratch_content := "import " ++ library, target_line := 0,
        target_char := "import ".length } ∧
    ((scratch_plan_def library none).scratch_content.data.drop
        (scratch_plan_def library none).target_char = library.data) ∧
    (scratch_plan_def library (some s)).scratch_content =
      ("import " ++ library ++ " as __m") ++ "\n" ++ ("__m." ++ s) ∧
    (scratch_plan_def library (some s)).target_line = 1 ∧
    (scratch_plan_def library (some s)).target_char + 1 = ("__m." ++ s).length ∧
    scratch_plan_refs library none = scratch_plan_def library none ∧
    scratch_plan_refs library (some s) = scratch_plan_def library (some s) := by
  refine ⟨rfl, ?_, ?_, rfl, ?_, rfl, rfl⟩
  · show ("import " ++ library).data.drop 7 = library.data
    simp [String.data_append]
  · show "import " ++ library ++ " as __m\n" ++ "__m." ++ s =
      ("import " ++ library ++ " as __m") ++ "\n" ++ ("__m." ++ s)
    apply congrArg String.mk
    simp [String.data_append]
  · show ("__m." ++ s).length - 1 + 1 = ("__m." ++ s).length
    have : ("__m." ++ s).length = 4 + s.length := by
      rw [String.length_append]
      rfl
    omega

/-- Claim C2: for both FQN resolvers, whenever the call actually runs (the
server handle is present), the scratch file no longer exists when the call
returns — on the query-succeeded path, the empty-result path, and the
exception path alike, since the `finally` block unlinks it. -/
theorem fqn_scratch_always_cleaned (c : Client) (library scratchName : String)
    (symbol : Option String) (dO : DefResp) (rO : SrvResp Ref) (fsA fsB : FS)
    (h : c.server.isSome = true) :
    (search_non_ws_symbol_def c library symbol scratchName dO fsA).fs
        (scratch_path_of c scratchName) = false ∧
    (find_non_ws_symbol_refs c library symbol scratchName rO fsB).fs
        (scratch_path_of c scratchName) = false := by
  have hn : c.server.isNone = false := by
    cases hs : c.server <;> simp [hs] at h ⊢
  constructor <;>
    simp [search_non_ws_symbol_def, find_non_ws_symbol_refs, hn,
      fs_write_file, fs_unlink]

/-- Witness for C2 at a concrete call: repository `/repo`, scratch file
`/repo/s.py`, both outcomes successful, starting from an empty
filesystem. -/
theorem fqn_scratch_always_cleaned_witness :
    (search_non_ws_symbol_def ⟨some (), "/repo"⟩ "os" none "s.py" (.value [])
        (fun _ => false)).fs (scratch_path_of ⟨some (), "/repo"⟩ "s.py") = false ∧
    (find_non_ws_symbol_refs ⟨some (), "/repo"⟩ "os" none "s.py" (.list [])
        (fun _ => false)).fs (scratch_path_of ⟨some (), "/repo"⟩ "s.py") = false :=
  fqn_scratch_always_cleaned ⟨some (), "/repo"⟩ "os" "s.py" none (.value [])
    (.list []) (fun _ => false) (fun _ => false) rfl

/-- Claim C9: the handshake sends the initialize request first; the
`initialized` notification is sent, and the ready state (queries allowed)
is reached, exactly when the capability validation succeeds; when
validation fails the handshake aborts fatally after only the initialize
request, so no query is ever issued. -/
theorem handshake_order_and_validation (caps : InitCaps) :
    (start_server_handshake caps).1.head? = some HsEvent.evInitRequest ∧
    (HsEvent.evInitializedNote ∈ (start_server_handshake caps).1 ↔
      valid_caps caps = true) ∧
    (HsEvent.evReady ∈ (start_server_handshake caps).1 ↔ valid_caps caps = true) ∧
    ((start_server_handshake caps).2 = true ↔ valid_caps caps = false) ∧
    (start_server_handshake caps).1 =
      (if valid_caps caps then
        [HsEvent.evInitRequest, HsEvent.evInitializedNote, HsEvent.evReady]
      else [HsEvent.evInitRequest]) := by
  cases h : valid_caps caps <;> simp [start_server_handshake, h]

/-- Claim C10: after `shutdown` clears the server handle, every query
operation returns `[]` with no scratch write and no server query, and a
second `shutdown` is a no-op on the client state. -/
theorem shutdown_disables_queries (c c0 : Client) (symO : SrvResp Sym)
    (defO refO rO : SrvResp Ref) (library scratchName : String)
    (symbol : Option String) (dO : DefResp) (fsA fsB : FS) (wsSym : SrvResp Sym)
    (oracle : String → Nat → Nat → SrvResp Ref) :
    search_symbol (shutdown c) symO = [] ∧
    find_definition (shutdown c) defO = [] ∧
    find_references (shutdown c) refO = [] ∧
    (search_non_ws_symbol_def (shutdown c) library symbol scratchName dO fsA).result
        = [] ∧
    (search_non_ws_symbol_def (shutdown c) library symbol scratchName dO fsA).fs
        = fsA ∧
    (search_non_ws_symbol_def (shutdown c) library symbol scratchName dO
        fsA).wrote_scratch = false ∧
    (search_non_ws_symbol_def (shutdown c) library symbol scratchName dO
        fsA).queried_server = false ∧
    (find_non_ws_symbol_refs (shutdown c) library symbol scratchName rO fsB).result
        = [] ∧
    (find_non_ws_symbol_refs (shutdown c) library symbol scratchName rO fsB).fs
        = fsB ∧
    (find_non_ws_symbol_refs (shutdown c) library symbol scratchName rO
        fsB).wrote_scratch = false ∧
    (find_non_ws_symbol_refs (shutdown c) library symbol scratchName rO
        fsB).queried_server = false ∧
    find_ws_symbol_refs (shutdown c) wsSym oracle = [] ∧
    shutdown (shutdown c0) = shutdown c0 :=
  ⟨rfl, rfl, rfl, rfl, rfl, rfl, rfl, rfl, rfl, rfl, rfl, rfl, rfl⟩

/-- Claim C5 counterexample: `find_definition` and `search_non_ws_symbol_def`
perform no dependency-tree filtering, so a definition located under a
virtual-environment / site-packages path is returned as-is.  This refutes
the claim that every location returned by the definition operations avoids
dependency-tree patterns. -/
theorem definition_ops_keep_venv_paths_counterexample :
    find_definition ⟨some (), "/repo"⟩
        (.list [{ absolutePath := some "/home/u/proj/venv/lib/python3.10/site-packages/numpy/core.py",
                  relativePath := none, uri := none, line := 0, character := 0 }]) =
      [{ absolutePath := some "/home/u/proj/venv/lib/python3.10/site-packages/numpy/core.py",
         relativePath := none, uri := none, line := 0, character := 0 }] ∧
    (search_non_ws_symbol_def ⟨some (), "/repo"⟩ "numpy" (some "array") "s.py"
        (.value [{ absolutePath := some "/home/u/proj/venv/lib/python3.10/site-packages/numpy/core.py",
                   relativePath := none, uri := none, line := 0, character := 0 }])
        (fun _ => false)).result =
      [{ absolutePath := some "/home/u/proj/venv/lib/python3.10/site-packages/numpy/core.py",
         relativePath := none, uri := none, line := 0, character := 0 }] ∧
    is_in_venv { absolutePath := some "/home/u/proj/venv/lib/python3.10/site-packages/numpy/core.py",
                 relativePath := none, uri := none, line := 0, character := 0 } = true :=
  ⟨rfl, rfl, by decide⟩

/-- Claim C5 (amended): the three references operations
(`find_references`, `find_non_ws_symbol_refs`, `find_ws_symbol_refs`)
never return a location whose path matches a dependency-tree pattern
(`_is_in_venv` with its lowercase path and both path-separator pattern
variants); the definition operations return server results unfiltered. -/
theorem references_exclude_venv_paths (c : Client) (rO : SrvResp Ref)
    (library scratchName : String) (symbol : Option String) (fs : FS)
    (symO : SrvResp Sym) (oracle : String → Nat → Nat → SrvResp Ref) (r : Ref) :
    (r ∈ find_references c rO → is_in_venv r = false) ∧
    (r ∈ (find_non_ws_symbol_refs c library symbol scratchName rO fs).result →
      is_in_venv r = false) ∧
    (r ∈ find_ws_symbol_refs c symO oracle → is_in_venv r = false) := by
  refine ⟨?_, ?_, ?_⟩
  · intro h
    unfold find_references at h
    split at h
    · simp at h
    · cases rO with
      | list xs => exact mem_filter_not_venv h
      | notList => simp at h
      | raises => simp at h
  · intro h
    unfold find_non_ws_symbol_refs at h
    split at h
    · simp at h
    · cases rO with
      | list xs => exact (mem_filter_not_venv_not_scratch h).1
      | notList => simp at h
      | raises => simp at h
  · intro h
    unfold find_ws_symbol_refs at h
    split at h
    · simp at h
    · cases symO with
      | notList => simp at h
      | raises => simp at h
      | list defs =>
        match defs with
        | [] => simp at h
        | [s] =>
          simp only at h
          rcases ho : oracle (if "file://".data.isPrefixOf s.uri.data
              then (⟨s.uri.data.drop 7⟩ : String) else s.uri) s.line s.character with
            xs | _ | _ <;> rw [ho] at h
          · exact mem_filter_not_venv h
          · simp at h
          · simp at h
        | a :: b :: t => simp at h

/-- Witness for the amended C5 at concrete calls: a workspace reference
survives each of the three filters and indeed fails the venv test. -/
theorem references_exclude_venv_paths_witness :
    is_in_venv { absolutePath := some "/repo/main.py", relativePath := none,
                 uri := none, line := 1, character := 2 } = false ∧
    is_in_venv { absolutePath := none, relativePath := some "core/calc.py",
                 uri := none, line := 3, character := 4 } = false ∧
    is_in_venv { absolutePath := none, relativePath := none,
                 uri := some "file:///repo/util.py", line := 5, character := 6 } = false := by
  refine ⟨?_, ?_, ?_⟩
  · exact (references_exclude_venv_paths ⟨some (), "/repo"⟩
      (.list [{ absolutePath := some "/repo/main.py", relativePath := none,
                uri := none, line := 1, character := 2 }])
      "os" "s.py" none (fun _ => false) .notList (fun _ _ _ => .raises) _).1 (by decide)
  · exact (references_exclude_venv_paths ⟨some (), "/repo"⟩
      (.list [{ absolutePath := none, relativePath := some "core/calc.py",
                uri := none, line := 3, character := 4 }])
      "os" "s.py" none (fun _ => false) .notList (fun _ _ _ => .raises) _).2.1 (by decide)
  · exact (references_exclude_venv_paths ⟨some (), "/repo"⟩ .raises
      "os" "s.py" none (fun _ => false)
      (.list [{ name := "f", uri := "file:///repo/a.py", line := 0, character := 0 }])
      (fun _ _ _ => .list [{ absolutePath := none, relativePath := none,
                             uri := some "file:///repo/util.py", line := 5,
                             character := 6 }]) _).2.2 (by decide)

/-- Claim C6 counterexample: `find_references` does not deduplicate — a
server response repeating the same location twice is returned with both
copies (the duplicate has identical path, line and character). -/
theorem find_references_keeps_duplicates_counterexample :
    find_references ⟨some (), "/repo"⟩
        (.list [{ absolutePath := some "/repo/main.py", relativePath := none,
                  uri := none, line := 3, character := 5 },
                { absolutePath := some "/repo/main.py", relativePath := none,
                  uri := none, line := 3, character := 5 }]) =
      [{ absolutePath := some "/repo/main.py", relativePath := none,
         uri := none, line := 3, character := 5 },
       { absolutePath := some "/repo/main.py", relativePath := none,
         uri := none, line := 3, character := 5 }] ∧
    is_in_venv { absolutePath := some "/repo/main.py", relativePath := none,
                 uri := none, line := 3, character := 5 } = false :=
  ⟨rfl, by decide⟩

/-- Claim C6 (amended): deduplication by the `(file, line, column)` triple
happens in the tool layer's `_deduplicate_results`, not in
`find_references`: its output never contains two entries with the same
triple, is an order-preserving subsequence of its input, and covers every
input key (so the first occurrence of each triple is kept). -/
theorem deduplicate_results_spec (results : List ToolResult) :
    (deduplicate_results results).Pairwise (fun a b => tool_key a ≠ tool_key b) ∧
    (deduplicate_results results).Sublist results ∧
    ∀ r ∈ results, ∃ q ∈ deduplicate_results results, tool_key q = tool_key r := by
  have sub : ∀ (l : List ToolResult) (seen : List (String × Nat × Nat)),
      (dedup_go seen l).Sublist l := by
    intro l
    induction l with
    | nil => intro seen; simp [dedup_go]
    | cons r rest ih =>
      intro seen
      simp only [dedup_go]
      split
      · exact (ih seen).trans (List.sublist_cons_self r rest)
      · exact (ih (tool_key r :: seen)).cons₂ r
  have notSeen : ∀ (l : List ToolResult) (seen : List (String × Nat × Nat)) (r : ToolResult),
      r ∈ dedup_go seen l → tool_key r ∉ seen := by
    intro l
    induction l with
    | nil => intro seen r h; simp [dedup_go] at h
    | cons a rest ih =>
      intro seen r h
      simp only [dedup_go] at h
      split at h
      · exact ih seen r h
      · rcases List.mem_cons.mp h with h1 | h1
        · subst h1
          assumption
        · have := ih _ r h1
          intro hc
          exact this (List.mem_cons_of_mem _ hc)
  have pw : ∀ (l : List ToolResult) (seen : List (String × Nat × Nat)),
      (dedup_go seen l).Pairwise (fun a b => tool_key a ≠ tool_key b) := by
    intro l
    induction l with
    | nil => intro seen; simp [dedup_go]
    | cons a rest ih =>
      intro seen
      simp only [dedup_go]
      split
      · exact ih seen
      · refine List.Pairwise.cons ?_ (ih (tool_key a :: seen))
        intro b hb
        have := notSeen rest (tool_key a :: seen) b hb
        intro hc
        exact this (by rw [← hc]; exact List.mem_cons_self _ _)
  have cover : ∀ (l : List ToolResult) (seen : List (String × Nat × Nat)) (r : ToolResult),
      r ∈ l → tool_key r ∈ seen ∨ ∃ q ∈ dedup_go seen l, tool_key q = tool_key r := by
    intro l
    induction l with
    | nil => intro seen r h; simp at h
    | cons a rest ih =>
      intro seen r h
      rcases List.mem_cons.mp h with h1 | h1
      · simp only [dedup_go]
        split
        · left; rw [h1]; assumption
        · right
          exact ⟨a, List.mem_cons_self _ _, by rw [h1]⟩
      · simp only [dedup_go]
        split
        · exact ih seen r h1
        · rcases ih (tool_key a :: seen) r h1 with h2 | h2
          · rcases List.mem_cons.mp h2 with h3 | h3
            · right
              exact ⟨a, List.mem_cons_self _ _, h3.symm⟩
            · left; exact h3
          · rcases h2 with ⟨q, hq, hqk⟩
            right
            exact ⟨q, List.mem_cons_of_mem _ hq, hqk⟩
  refine ⟨pw results [], sub results [], ?_⟩
  intro r hr
  rcases cover results [] r hr with h | h
  · simp at h
  · exact h

/-- Witness for the amended C6 on a concrete duplicated input: the
duplicate triple is collapsed while both distinct keys survive. -/
theorem deduplicate_results_spec_witness :
    (deduplicate_results [⟨"a.py", 1, 2⟩, ⟨"b.py", 3, 4⟩, ⟨"a.py", 1, 2⟩]).Pairwise
        (fun a b => tool_key a ≠ tool_key b) ∧
    (deduplicate_results [⟨"a.py", 1, 2⟩, ⟨"b.py", 3, 4⟩, ⟨"a.py", 1, 2⟩]).Sublist
        [⟨"a.py", 1, 2⟩, ⟨"b.py", 3, 4⟩, ⟨"a.py", 1, 2⟩] ∧
    ∃ q ∈ deduplicate_results [⟨"a.py", 1, 2⟩, ⟨"b.py", 3, 4⟩, ⟨"a.py", 1, 2⟩],
      tool_key q = tool_key ⟨"a.py", 1, 2⟩ := by
  have h := deduplicate_results_spec [⟨"a.py", 1, 2⟩, ⟨"b.py", 3, 4⟩, ⟨"a.py", 1, 2⟩]
  exact ⟨h.1, h.2.1, h.2.2 ⟨"a.py", 1, 2⟩ (by decide)⟩

/-- Claim C7 counterexample: `search_non_ws_symbol_def` (the definition
variant) does not drop results whose path equals the scratch file's own
path — a self-definition pointing at the scratch file is returned. -/
theorem def_variant_keeps_scratch_refs_counterexample :
    (search_non_ws_symbol_def ⟨some (), "/repo"⟩ "os" (some "path") "s.py"
        (.value [{ absolutePath := some "/repo/s.py", relativePath := none,
                   uri := none, line := 0, character := 7 }])
        (fun _ => false)).result =
      [{ absolutePath := some "/repo/s.py", relativePath := none,
         uri := none, line := 0, character := 7 }] ∧
    is_scratch_file_ref "/repo" (scratch_path_of ⟨some (), "/repo"⟩ "s.py")
      { absolutePath := some "/repo/s.py", relativePath := none,
        uri := none, line := 0, character := 7 } = true :=
  ⟨rfl, by decide⟩

/-- Claim C7 (amended): only the references variant
(`find_non_ws_symbol_refs`) drops results whose path equals the scratch
file's own path (by `absolutePath`, resolved `relativePath`, or `file://`
uri); the definition variant returns the server's results unfiltered. -/
theorem refs_variant_drops_scratch_refs (c : Client) (library scratchName : String)
    (symbol : Option String) (rO : SrvResp Ref) (fs : FS) (r : Ref)
    (h : r ∈ (find_non_ws_symbol_refs c library symbol scratchName rO fs).result) :
    is_scratch_file_ref c.repoPath (scratch_path_of c scratchName) r = false := by
  unfold find_non_ws_symbol_refs at h
  split at h
  · simp at h
  · cases rO with
    | list xs => exact (mem_filter_not_venv_not_scratch h).2
    | notList => simp at h
    | raises => simp at h

/-- Witness for the amended C7: a genuine workspace reference passes the
filter and is indeed not a scratch-file reference. -/
theorem refs_variant_drops_scratch_refs_witness :
    is_scratch_file_ref "/repo" (scratch_path_of ⟨some (), "/repo"⟩ "s.py")
      { absolutePath := some "/repo/main.py", relativePath := none,
        uri := none, line := 1, character := 2 } = false :=
  refs_variant_drops_scratch_refs ⟨some (), "/repo"⟩ "os" "s.py" none
    (.list [{ absolutePath := some "/repo/main.py", relativePath := none,
              uri := none, line := 1, character := 2 }])
    (fun _ => false) _ (by decide)

/-- Claim C8 counterexample: an empty module name is not rejected — with
the server up, the call still writes the scratch file (content `"import "`)
and still issues the query, for both FQN resolvers. -/
theorem empty_module_not_rejected_counterexample :
    (search_non_ws_symbol_def ⟨some (), "/repo"⟩ "" none "s.py" (.value [])
        (fun _ => false)).wrote_scratch = true ∧
    (search_non_ws_symbol_def ⟨some (), "/repo"⟩ "" none "s.py" (.value [])
        (fun _ => false)).queried_server = true ∧
    (search_non_ws_symbol_def ⟨some (), "/repo"⟩ "" none "s.py" (.value [])
        (fun _ => false)).plan.scratch_content = "import " ∧
    (find_non_ws_symbol_refs ⟨some (), "/repo"⟩ "" none "s.py" (.list [])
        (fun _ => false)).wrote_scratch = true ∧
    (find_non_ws_symbol_refs ⟨some (), "/repo"⟩ "" none "s.py" (.list [])
        (fun _ => false)).queried_server = true :=
  ⟨rfl, rfl, by decide, rfl, rfl⟩

/-- Claim C8 (amended): the FQN resolvers perform no module-name
validation: whenever the server handle is present, the call — including
with an empty module name — writes the scratch file and issues the query
against the language server. -/
theorem fqn_no_module_validation (c : Client) (library scratchName : String)
    (symbol : Option String) (dO : DefResp) (rO : SrvResp Ref) (fsA fsB : FS)
    (h : c.server.isSome = true) :
    (search_non_ws_symbol_def c library symbol scratchName dO fsA).wrote_scratch
        = true ∧
    (search_non_ws_symbol_def c library symbol scratchName dO fsA).queried_server
        = true ∧
    (find_non_ws_symbol_refs c library symbol scratchName rO fsB).wrote_scratch
        = true ∧
    (find_non_ws_symbol_refs c library symbol scratchName rO fsB).queried_server
        = true := by
  have hn : c.server.isNone = false := by
    cases hs : c.server <;> simp [hs] at h ⊢
  refine ⟨?_, ?_, ?_, ?_⟩ <;>
    simp [search_non_ws_symbol_def, find_non_ws_symbol_refs, hn]

/-- Witness for the amended C8 at the empty module name itself. -/
theorem fqn_no_module_validation_witness :
    (search_non_ws_symbol_def ⟨some (), "/repo"⟩ "" none "x.py" .raises
        (fun _ => false)).wrote_scratch = true ∧
    (search_non_ws_symbol_def ⟨some (), "/repo"⟩ "" none "x.py" .raises
        (fun _ => false)).queried_server = true ∧
    (find_non_ws_symbol_refs ⟨some (), "/repo"⟩ "" none "x.py" .raises
        (fun _ => false)).wrote_scratch = true ∧
    (find_non_ws_symbol_refs ⟨some (), "/repo"⟩ "" none "x.py" .raises
        (fun _ => false)).queried_server = true :=
  fqn_no_module_validation ⟨some (), "/repo"⟩ "" "x.py" none .raises .raises
    (fun _ => false) (fun _ => false) rfl

/-- Popping an id removes it from the pending table. -/
theorem tbl_lookup_pop_self (t : PendingTable) (rid : Nat) :
    tbl_lookup (tbl_pop t rid) rid = none := by
  induction t with
  | nil => rfl
  | cons p rest ih =>
    by_cases h : p.1 = rid
    · simpa [tbl_pop, h] using ih
    · simpa [tbl_pop, tbl_lookup, List.find?, h] using ih

/-- Popping an id leaves every other id's entry unchanged. -/
theorem tbl_lookup_pop_other (t : PendingTable) (rid j : Nat) (hj : j ≠ rid) :
    tbl_lookup (tbl_pop t rid) j = tbl_lookup t j := by
  induction t with
  | nil => rfl
  | cons p rest ih =>
    by_cases h : p.1 = rid
    · have hpop : tbl_pop (p :: rest) rid = tbl_pop rest rid := by
        simp [tbl_pop, List.filter_cons, h]
      have hlk : tbl_lookup (p :: rest) j = tbl_lookup rest j := by
        unfold tbl_lookup
        rw [List.find?_cons_of_neg]
        simp [h]
        omega
      rw [hpop, hlk]
      exact ih
    · have hpop : tbl_pop (p :: rest) rid = p :: tbl_pop rest rid := by
        simp [tbl_pop, List.filter_cons, h]
      rw [hpop]
      by_cases hpj : p.1 = j
      · unfold tbl_lookup
        rw [List.find?_cons_of_pos, List.find?_cons_of_pos] <;> simp [hpj]
      · unfold tbl_lookup
        rw [List.find?_cons_of_neg, List.find?_cons_of_neg] <;> try simp [hpj]
        exact ih

/-- Claim C4: on timeout, `_send_request` surfaces the timeout failure
(`None`) and removes the request's pending entry — without touching any
other id's entry — and the reader discards a response whose id is no longer
in the pending table, leaving the whole table (hence every other in-flight
request's entry) unchanged and not crashing. -/
theorem timeout_removes_entry_and_late_response_discarded (t : PendingTable)
    (rid j : Nat) (resp : RpcResponse) :
    (send_request_timeout t rid).1 = none ∧
    tbl_lookup (send_request_timeout t rid).2 rid = none ∧
    (j ≠ rid → tbl_lookup (send_request_timeout t rid).2 j = tbl_lookup t j) ∧
    (resp.rid = some rid → tbl_lookup t rid = none → read_dispatch t resp = t) := by
  refine ⟨rfl, tbl_lookup_pop_self t rid, fun hj => tbl_lookup_pop_other t rid j hj, ?_⟩
  intro hr hmiss
  simp [read_dispatch, hr, hmiss]

/-- Witness for C4 on a concrete table: one other request (id 1) is
pending, request id 2 times out, and a late response for id 2 is
discarded. -/
theorem timeout_removes_entry_witness :
    (send_request_timeout [(1, ⟨none, false⟩)] 2).1 = none ∧
    tbl_lookup (send_request_timeout [(1, ⟨none, false⟩)] 2).2 2 = none ∧
    tbl_lookup (send_request_timeout [(1, ⟨none, false⟩)] 2).2 1 =
      tbl_lookup [(1, ⟨none, false⟩)] 1 ∧
    read_dispatch [(1, ⟨none, false⟩)] ⟨some 2, "late"⟩ = [(1, ⟨none, false⟩)] := by
  have h := timeout_removes_entry_and_late_response_discarded
    [(1, ⟨none, false⟩)] 2 1 ⟨some 2, "late"⟩
  exact ⟨h.1, h.2.1, h.2.2.1 (by decide), h.2.2.2 rfl (by decide)⟩

/-! ### Wire-format lemmas -/

/-- ASCII-ness is preserved by list append. -/
theorem ascii_chars_append {a b : List Char} (ha : ascii_chars a) (hb : ascii_chars b) :
    ascii_chars (a ++ b) := by
  intro c hc
  rcases List.mem_append.mp hc with h | h
  · exact ha c h
  · exact hb c h

/-- ASCII-ness is preserved by string append. -/
theorem ascii_str_append {a b : String} (ha : ascii_str a) (hb : ascii_str b) :
    ascii_str (a ++ b) := by
  show ascii_chars (a ++ b).data
  rw [String.data_append]
  exact ascii_chars_append ha hb

/-- Hex digits are ASCII. -/
theorem hex_digit_ascii (n : Nat) : (hex_digit n).toNat < 128 := by
  have hb : n % 16 < 16 := Nat.mod_lt n (by norm_num)
  have : ∀ m : Nat, m < 16 → (Nat.digitChar m).toNat < 128 := by decide
  exact this (n % 16) hb

/-- A `\uXXXX` digit block is ASCII. -/
theorem hex4_ascii (v : Nat) : ascii_chars (hex4 v) := by
  intro c hc
  simp only [hex4, List.mem_cons, List.not_mem_nil, or_false] at hc
  rcases hc with rfl | rfl | rfl | rfl <;> exact hex_digit_ascii _

set_option maxHeartbeats 1000000 in
/-- The escape of any character is ASCII. -/
theorem esc_char_ascii (c : Char) : ascii_chars (esc_char c) := by
  intro x hx
  unfold esc_char at hx
  split_ifs at hx with h1 h2 h3 h4 h5 h6 h7 h8 h9 h10
  · rcases List.mem_cons.mp hx with rfl | hx
    · decide
    rcases List.mem_singleton.mp hx with rfl
    decide
  · rcases List.mem_cons.mp hx with rfl | hx
    · decide
    rcases List.mem_singleton.mp hx with rfl
    decide
  · rcases List.mem_cons.mp hx with rfl | hx
    · decide
    rcases List.mem_singleton.mp hx with rfl
    decide
  · rcases List.mem_cons.mp hx with rfl | hx
    · decide
    rcases List.mem_singleton.mp hx with rfl
    decide
  · rcases List.mem_cons.mp hx with rfl | hx
    · decide
    rcases List.mem_singleton.mp hx with rfl
    decide
  · rcases List.mem_cons.mp hx with rfl | hx
    · decide
    rcases List.mem_singleton.mp hx with rfl
    decide
  · rcases List.mem_cons.mp hx with rfl | hx
    · decide
    rcases List.mem_singleton.mp hx with rfl
    decide
  · rcases List.mem_cons.mp hx with rfl | hx
    · decide
    rcases List.mem_cons.mp hx with rfl | hx
    · decide
    exact hex4_ascii _ x hx
  · rcases List.mem_singleton.mp hx with rfl
    omega
  · rcases List.mem_cons.mp hx with rfl | hx
    · decide
    rcases List.mem_cons.mp hx with rfl | hx
    · decide
    exact hex4_ascii _ x hx
  · rcases List.mem_append.mp hx with hx | hx
    · rcases List.mem_cons.mp hx with rfl | hx
      · decide
      rcases List.mem_cons.mp hx with rfl | hx
      · decide
      exact hex4_ascii _ x hx
    · rcases List.mem_cons.mp hx with rfl | hx
      · decide
      rcases List.mem_cons.mp hx with rfl | hx
      · decide
      exact hex4_ascii _ x hx

/-- Facts about `Nat.digitChar` on values below ten. -/
theorem digit_char_props : ∀ d : Nat, d < 10 →
    (Nat.digitChar d).toNat < 128 ∧ is_digit_char (Nat.digitChar d) = true ∧
    digit_val (Nat.digitChar d) = d := by
  decide

/-- Every character of `nat_chars n` is a decimal digit. -/
theorem nat_chars_digit {n : Nat} {c : Char} (hc : c ∈ nat_chars n) :
    is_digit_char c = true := by
  unfold nat_chars at hc
  split at hc
  · rcases List.mem_singleton.mp hc with rfl
    decide
  · rcases List.mem_map.mp hc with ⟨d, hd, rfl⟩
    have : d < 10 := Nat.digits_lt_base (by norm_num) (List.mem_reverse.mp hd)
    exact (digit_char_props d this).2.1

/-- A decimal digit character is ASCII, is not a colon or newline, and is
not Python whitespace. -/
theorem is_digit_char_props {c : Char} (h : is_digit_char c = true) :
    c.toNat < 128 ∧ c ≠ ':' ∧ c ≠ '\n' ∧ is_py_space c = false := by
  simp only [is_digit_char, Bool.and_eq_true, decide_eq_true_eq] at h
  refine ⟨by omega, ?_, ?_, ?_⟩
  · intro hc
    rw [hc] at h
    revert h
    decide
  · intro hc
    rw [hc] at h
    revert h
    decide
  · cases hb : is_py_space c
    · rfl
    · exfalso
      simp only [is_py_space, Bool.or_eq_true, decide_eq_true_eq] at hb
      rcases hb with ((((hc | hc) | hc) | hc) | hc) | hc <;>
        (rw [hc] at h; revert h; decide)

/-- The digit list `nat_chars` is never empty. -/
theorem nat_chars_ne_nil (n : Nat) : nat_chars n ≠ [] := by
  unfold nat_chars
  split
  · simp
  · simp [Nat.digits_ne_nil_iff_ne_zero]
    assumption

/-- Folding the digit-value step over digit characters of values below ten
equals folding the values themselves. -/
theorem foldl_digit_val_eq : ∀ (l : List Nat), (∀ d ∈ l, d < 10) → ∀ (acc : Nat),
    l.foldl (fun a d => a * 10 + digit_val (Nat.digitChar d)) acc =
    l.foldl (fun a d => a * 10 + d) acc := by
  intro l
  induction l with
  | nil => intro _ acc; rfl
  | cons d t ih =>
    intro hl acc
    simp only [List.foldl_cons]
    rw [(digit_char_props d (hl d (List.mem_cons_self _ _))).2.2]
    exact ih (fun x hx => hl x (List.mem_cons_of_mem _ hx)) _

/-- Folding the base-ten accumulation step over a reversed digit list
computes `Nat.ofDigits`. -/
theorem foldl_rev_ofDigits : ∀ (l : List Nat) (acc : Nat),
    l.reverse.foldl (fun a d => a * 10 + d) acc =
    acc * 10 ^ l.length + Nat.ofDigits 10 l := by
  intro l
  induction l with
  | nil =>
    intro acc
    simp [Nat.ofDigits_nil]
  | cons d t ih =>
    intro acc
    rw [List.reverse_cons, List.foldl_append, ih]
    simp only [List.foldl_cons, List.foldl_nil, Nat.ofDigits_cons, List.length_cons,
      pow_succ]
    ring

/-- The reader's `int(...)` model inverts the writer's `str(...)` model. -/
theorem parse_nat_chars_roundtrip (n : Nat) : parse_nat_chars (nat_chars n) = some n := by
  have hne : nat_chars n ≠ [] := nat_chars_ne_nil n
  have hall : (nat_chars n).all is_digit_char = true :=
    List.all_eq_true.mpr fun c hc => nat_chars_digit hc
  unfold parse_nat_chars
  rw [if_pos ⟨hne, hall⟩]
  congr 1
  by_cases h0 : n = 0
  · subst h0
    decide
  · unfold nat_chars
    rw [if_neg h0, List.foldl_map]
    have hd : ∀ d ∈ (Nat.digits 10 n).reverse, d < 10 := fun d hd =>
      Nat.digits_lt_base (by norm_num) (List.mem_reverse.mp hd)
    rw [show ((Nat.digits 10 n).reverse.foldl
          (fun a d => a * 10 + digit_val (Nat.digitChar d)) 0) =
        ((Nat.digits 10 n).reverse.foldl (fun a d => a * 10 + d) 0) from
      foldl_digit_val_eq _ hd 0]
    rw [foldl_rev_ofDigits]
    simp [Nat.ofDigits_digits]

/-- An ASCII bound checked by membership. -/
theorem ascii_decide (s : String) (h : ∀ c ∈ s.data, c.toNat < 128) : ascii_str s := h

/-- The digit list `nat_chars` is ASCII. -/
theorem nat_chars_ascii (n : Nat) : ascii_chars (nat_chars n) :=
  fun _ hc => (is_digit_char_props (nat_chars_digit hc)).1

/-- The decimal string `nat_str` is ASCII. -/
theorem nat_str_ascii (n : Nat) : ascii_str (nat_str n) :=
  nat_chars_ascii n

/-- The integer string `int_str` is ASCII. -/
theorem int_str_ascii (n : Int) : ascii_str (int_str n) := by
  cases n with
  | ofNat m => exact nat_str_ascii m
  | negSucc m =>
    exact ascii_str_append (ascii_decide "-" (by decide)) (nat_str_ascii (m + 1))

/-- A serialized JSON string literal is ASCII. -/
theorem quote_json_str_ascii (s : String) : ascii_str (quote_json_str s) := by
  intro c hc
  simp only [quote_json_str, List.mem_cons, List.mem_append, List.mem_singleton,
    List.mem_flatten, List.mem_map, List.not_mem_nil, or_false] at hc
  rcases hc with rfl | ⟨⟨l, ⟨x, _, rfl⟩, hcl⟩ | rfl⟩
  · decide
  · exact esc_char_ascii x c hcl
  · decide

/-- The output of the modelled `json.dumps` is ASCII, as `ensure_ascii=True`
guarantees. -/
theorem json_dumps_ascii (j : Json) : ascii_str (json_dumps j) := by
  refine @json_dumps.induct (fun j => ascii_str (json_dumps j))
    (fun ms => ascii_str (dumps_members ms)) (fun xs => ascii_str (dumps_arr xs))
    ?_ ?_ ?_ ?_ ?_ ?_ ?_ ?_ ?_ ?_ ?_ ?_ ?_ j
  · exact ascii_decide "null" (by decide)
  · exact ascii_decide "true" (by decide)
  · exact ascii_decide "false" (by decide)
  · intro n; exact int_str_ascii n
  · intro s; exact quote_json_str_ascii s
  · intro xs ih
    exact ascii_str_append (ascii_str_append (ascii_decide "[" (by decide)) ih)
      (ascii_decide "]" (by decide))
  · intro ms ih
    exact ascii_str_append (ascii_str_append (ascii_decide "\x7b" (by decide)) ih)
      (ascii_decide "\x7d" (by decide))
  · exact ascii_decide "" (by decide)
  · intro x ih; exact ih
  · intro x y xs ihx ihrest
    exact ascii_str_append (ascii_str_append ihx (ascii_decide ", " (by decide))) ihrest
  · exact ascii_decide "" (by decide)
  · intro k v ihv
    exact ascii_str_append (ascii_str_append (quote_json_str_ascii k)
      (ascii_decide ": " (by decide))) ihv
  · intro k v m ms ihv ihrest
    exact ascii_str_append (ascii_str_append (ascii_str_append (ascii_str_append
      (quote_json_str_ascii k) (ascii_decide ": " (by decide))) ihv)
      (ascii_decide ", " (by decide))) ihrest

/-- The serialized form of a message is never the empty string. -/
theorem json_dumps_ne_nil (j : Json) : (json_dumps j).data ≠ [] := by
  cases j with
  | null => simp [json_dumps]
  | bool b => cases b <;> simp [json_dumps]
  | num n =>
    cases n with
    | ofNat m =>
      show (nat_str m).data ≠ []
      exact nat_chars_ne_nil m
    | negSucc m =>
      show (("-" : String) ++ nat_str (m + 1)).data ≠ []
      simp [String.data_append]
  | str s => simp [json_dumps, quote_json_str]
  | arr xs =>
    show (("[" : String) ++ dumps_arr xs ++ "]").data ≠ []
    simp [String.data_append]
  | obj ms =>
    show (("\x7b" : String) ++ dumps_members ms ++ "\x7d").data ≠ []
    simp [String.data_append]

/-- On an ASCII list, every character occupies one UTF-8 byte. -/
theorem sum_utf8_ascii : ∀ (l : List Char), ascii_chars l →
    (l.map utf8_char_len).sum = l.length := by
  intro l
  induction l with
  | nil => intro _; rfl
  | cons c t ih =>
    intro hl
    have hc : utf8_char_len c = 1 := by
      unfold utf8_char_len
      rw [if_pos]
      exact hl c (List.mem_cons_self _ _)
    simp only [List.map_cons, List.sum_cons, hc, List.length_cons]
    rw [ih (fun x hx => hl x (List.mem_cons_of_mem _ hx))]
    omega

/-- For an ASCII body, the `Content-Length` value (UTF-8 byte count)
coincides with the character count that the text-mode reader consumes. -/
theorem utf8_len_eq_length {s : String} (h : ascii_str s) :
    utf8_len s = s.data.length :=
  sum_utf8_ascii s.data h

/-- The reader's `read_line` consumes exactly the first line, newline included. -/
theorem read_line_append : ∀ (pre rest : List Char), '\n' ∉ pre →
    read_line (pre ++ '\n' :: rest) = (pre ++ ['\n'], rest) := by
  intro pre
  induction pre with
  | nil =>
    intro rest _
    simp [read_line]
  | cons c t ih =>
    intro rest h
    have hc : ¬(c = '\n') := fun hcc => h (by rw [hcc]; exact List.mem_cons_self _ _)
    simp only [List.cons_append, read_line, List.append_eq]
    rw [if_neg hc, ih rest (fun hm => h (List.mem_cons_of_mem _ hm))]

/-- The function `dropWhile` skips a block on which the predicate holds. -/
theorem dropWhile_append_all {p : Char → Bool} :
    ∀ (l₁ l₂ : List Char), (∀ c ∈ l₁, p c = true) →
    (l₁ ++ l₂).dropWhile p = l₂.dropWhile p := by
  intro l₁
  induction l₁ with
  | nil => intro l₂ _; rfl
  | cons c t ih =>
    intro l₂ h
    rw [List.cons_append, List.dropWhile_cons, if_pos (h c (List.mem_cons_self _ _))]
    exact ih l₂ (fun x hx => h x (List.mem_cons_of_mem _ hx))

/-- The function `dropWhile` is the identity on a list on which the predicate fails. -/
theorem dropWhile_eq_self_of_neg {p : Char → Bool} (l : List Char)
    (h : ∀ c ∈ l, p c = false) : l.dropWhile p = l := by
  cases l with
  | nil => rfl
  | cons c t =>
    rw [List.dropWhile_cons, if_neg]
    simp [h c (List.mem_cons_self _ _)]

/-- Stripping a length field of the form `" <digits>\r\n"` leaves the
digits. -/
theorem strip_chars_spec (mid : List Char) (hne : mid ≠ [])
    (h : ∀ c ∈ mid, is_py_space c = false) :
    strip_chars (' ' :: (mid ++ ['\r', '\n'])) = mid := by
  unfold strip_chars
  have h1 : (' ' :: (mid ++ ['\r', '\n'])).dropWhile is_py_space
      = mid ++ ['\r', '\n'] := by
    rw [List.dropWhile_cons, if_pos (by decide)]
    cases mid with
    | nil => exact absurd rfl hne
    | cons m t =>
      rw [List.cons_append, List.dropWhile_cons, if_neg]
      simp [h m (List.mem_cons_self _ _)]
  rw [h1, List.reverse_append]
  have h2 : (['\r', '\n'] : List Char).reverse = ['\n', '\r'] := rfl
  rw [h2]
  simp only [List.cons_append, List.nil_append]
  rw [List.dropWhile_cons, if_pos (by decide), List.dropWhile_cons, if_pos (by decide)]
  rw [dropWhile_eq_self_of_neg mid.reverse (fun c hc => h c (List.mem_reverse.mp hc))]
  exact List.reverse_reverse mid

/-- A list is a prefix-check success of itself followed by anything. -/
theorem isPrefixOf_append_self (l t : List Char) : l.isPrefixOf (l ++ t) = true := by
  simp [List.isPrefixOf_iff_prefix]

/-- Computing `split(":")[1]` on the produced header line yields the text between the
colon and the end of the line. -/
theorem header_field_spec (n : Nat) :
    header_length_field ("Content-Length: ".data ++ (nat_chars n ++ ['\r', '\n'])) =
      ' ' :: (nat_chars n ++ ['\r', '\n']) := by
  unfold header_length_field
  have hdecomp : "Content-Length: ".data ++ (nat_chars n ++ ['\r', '\n'])
      = "Content-Length".data ++ (':' :: (' ' :: (nat_chars n ++ ['\r', '\n']))) := by
    have h0 : "Content-Length: ".data = "Content-Length".data ++ [':', ' '] := rfl
    rw [h0, List.append_assoc]
    rfl
  rw [hdecomp]
  rw [dropWhile_append_all "Content-Length".data _ (by decide)]
  rw [List.dropWhile_cons, if_neg (by simp)]
  simp only [List.drop_succ_cons, List.drop_zero]
  apply List.takeWhile_eq_self_iff.mpr
  intro c hc
  rcases List.mem_cons.mp hc with rfl | hc
  · decide
  rcases List.mem_append.mp hc with hc | hc
  · have := (is_digit_char_props (nat_chars_digit hc)).2.1
    simpa using this
  · rcases List.mem_cons.mp hc with rfl | hc
    · decide
    rcases List.mem_singleton.mp hc with rfl
    decide

/-- Claim C3: the transport writes exactly the frame
`Content-Length: <N>` CRLF CRLF `<body>` where `N` is the UTF-8 byte length
of the `json.dumps` body (equal to its character count, the body being
ASCII), and the background reader, given that frame at the head of its
stream, consumes it and recovers exactly the `N` body characters — so the
structure parsed from them is the structure that was sent — leaving the
rest of the stream intact. -/
theorem wire_frame_roundtrip (j : Json) (rest : List Char) :
    utf8_len (json_dumps j) = (json_dumps j).data.length ∧
    (encode_frame (json_dumps j)).data =
      "Content-Length: ".data ++ (nat_chars (utf8_len (json_dumps j)) ++
        ('\r' :: '\n' :: '\r' :: '\n' :: (json_dumps j).data)) ∧
    read_frame ((encode_frame (json_dumps j)).data ++ rest) =
      some ((json_dumps j).data, rest) := by
  have hascii : ascii_chars (json_dumps j).data := json_dumps_ascii j
  have hlen : utf8_len (json_dumps j) = (json_dumps j).data.length :=
    utf8_len_eq_length hascii
  have hframe : (encode_frame (json_dumps j)).data =
      "Content-Length: ".data ++ (nat_chars (utf8_len (json_dumps j)) ++
        ('\r' :: '\n' :: '\r' :: '\n' :: (json_dumps j).data)) := by
    show ((("Content-Length: " ++ nat_str (utf8_len (json_dumps j))) ++ "\r\n\r\n")
        ++ json_dumps j).data = _
    simp only [String.data_append, List.append_assoc]
    rfl
  refine ⟨hlen, hframe, ?_⟩
  have hpren : '\n' ∉ "Content-Length: ".data ++
      (nat_chars (utf8_len (json_dumps j)) ++ ['\r']) := by
    intro hmem
    rcases List.mem_append.mp hmem with hc | hc
    · revert hc
      decide
    rcases List.mem_append.mp hc with hc | hc
    · exact (is_digit_char_props (nat_chars_digit hc)).2.2.1 rfl
    · revert hc
      decide
  have hstream : (encode_frame (json_dumps j)).data ++ rest =
      ("Content-Length: ".data ++ (nat_chars (utf8_len (json_dumps j)) ++ ['\r'])) ++
        '\n' :: ('\r' :: '\n' :: ((json_dumps j).data ++ rest)) := by
    rw [hframe]
    simp [List.append_assoc]
  have hheader : ("Content-Length: ".data ++
        (nat_chars (utf8_len (json_dumps j)) ++ ['\r'])) ++ ['\n'] =
      "Content-Length: ".data ++ (nat_chars (utf8_len (json_dumps j)) ++ ['\r', '\n']) := by
    simp [List.append_assoc]
  have hne : (("Content-Length: ".data ++
      (nat_chars (utf8_len (json_dumps j)) ++ ['\r'])) ++ ['\n'] : List Char) ≠ [] := by
    simp
  have hshape : ("Content-Length: ".data ++
        (nat_chars (utf8_len (json_dumps j)) ++ ['\r'])) ++ ['\n'] =
      "Content-Length:".data ++
        (' ' :: (nat_chars (utf8_len (json_dumps j)) ++ ['\r', '\n'])) := by
    rw [hheader]
    have h0 : "Content-Length: ".data = "Content-Length:".data ++ [' '] := rfl
    rw [h0, List.append_assoc]
    rfl
  have hpref : ("Content-Length:".data.isPrefixOf
      (("Content-Length: ".data ++ (nat_chars (utf8_len (json_dumps j)) ++ ['\r'])) ++
        ['\n'])) = true := by
    rw [hshape]
    exact isPrefixOf_append_self _ _
  have hmidne : nat_chars (utf8_len (json_dumps j)) ≠ [] :=
    nat_chars_ne_nil _
  have hmidns : ∀ c ∈ nat_chars (utf8_len (json_dumps j)), is_py_space c = false :=
    fun c hc => (is_digit_char_props (nat_chars_digit hc)).2.2.2
  have hfield : header_length_field (("Content-Length: ".data ++
      (nat_chars (utf8_len (json_dumps j)) ++ ['\r'])) ++ ['\n']) =
      ' ' :: (nat_chars (utf8_len (json_dumps j)) ++ ['\r', '\n']) := by
    rw [hheader]
    exact header_field_spec _
  have hparse : parse_nat_chars (strip_chars (header_length_field
      (("Content-Length: ".data ++ (nat_chars (utf8_len (json_dumps j)) ++ ['\r'])) ++
        ['\n']))) = some (utf8_len (json_dumps j)) := by
    rw [hfield, strip_chars_spec _ hmidne hmidns]
    exact parse_nat_chars_roundtrip _
  have hrl2 : read_line ('\r' :: '\n' :: ((json_dumps j).data ++ rest)) =
      (['\r', '\n'], (json_dumps j).data ++ rest) := by
    have := read_line_append ['\r'] ((json_dumps j).data ++ rest) (by decide)
    simpa using this
  have htake : ((json_dumps j).data ++ rest).take (utf8_len (json_dumps j)) =
      (json_dumps j).data := by
    rw [hlen]
    exact List.take_left _ _
  have hdrop : ((json_dumps j).data ++ rest).drop (utf8_len (json_dumps j)) = rest := by
    rw [hlen]
    exact List.drop_left _ _
  unfold read_frame
  rw [hstream, read_line_append _ _ hpren]
  rw [if_neg hne, hpref]
  dsimp only [Bool.not_true]
  rw [if_neg (by simp), hparse]
  dsimp only
  rw [hrl2]
  dsimp only
  rw [htake, hdrop, if_neg (json_dumps_ne_nil j)]

end LspRepograph
